import Mathlib

/-!
Verification of the `const-assoc` / `const_array_map` crates: a fixed-capacity
associative container backed by a single array, keyed by primitive enums.
The Lean definitions below are a shallow embedding of the Rust sources:

* `src/const-assoc/src/utils.rs` — `into_usize` and the `target_pointer_width
  = "64"` witness enumeration (we model the 64-bit target).
* `src/const_array_map/src/lib.rs` — `ConstArrayMap`, `key_to_index`, the
  accessors, iteration, default construction and the `const_array_map!` macro.
* `src/const_array_map_derive/src/lib.rs` — `derive`, `parse_repr_attribute`
  and `max_discriminant`.

Rust machine integers are modelled as `Nat` with explicit `% 2 ^ w` where a
cast occurs; a bounds-checked array index (which panics when out of range)
is modelled as an `Option`; `anyhow::Result` is modelled as `Except String`.
An enum value is modelled by its discriminant: `transmute_safe` from the enum
to its `Repr` type is the identity on that discriminant.
-/

set_option autoImplicit false

namespace ConstAssoc

/-- The supported discriminant representations, mirroring both
`IntoUSizeWitness` (utils.rs, `target_pointer_width = "64"` branch) and the
widths accepted by the derive macro. -/
inductive Width where
  | u8
  | u16
  | u32
  | u64
  | usize
deriving DecidableEq

/-- Bit width of each representation on a 64-bit target. -/
def Width.bits : Width → Nat
  | .u8 => 8
  | .u16 => 16
  | .u32 => 32
  | .u64 => 64
  | .usize => 64

/-- `usize` is 64 bits wide on the modelled target. -/
def usizeBits : Nat := 64

/-- Embedding of `into_usize` (utils.rs, lines 49-59, the
`target_pointer_width = "64"` version): each fixed-width arm performs the
`as usize` cast (truncation to 64 bits); the `usize` arm returns the value
unchanged. -/
def into_usize (w : Width) (x : Nat) : Nat :=
  match w with
  | .u8 => x % 2 ^ usizeBits
  | .u16 => x % 2 ^ usizeBits
  | .u32 => x % 2 ^ usizeBits
  | .u64 => x % 2 ^ usizeBits
  | .usize => x

/-- Embedding of `transmute_safe` (utils.rs, lines 80-96) as used on keys: the
enum value and its `Repr` share the same bit pattern, so on the discriminant
value the reinterpretation is the identity. -/
def transmute_safe (x : Nat) : Nat := x

/-- Embedding of `PrimitiveEnumLayout<Discriminant, MAX_VARIANTS>`
(lib.rs, lines 262-273): the discriminant representation type and the slot
count. -/
structure PrimitiveEnumLayout where
  discriminant : Width
  maxVariants : Nat
deriving DecidableEq

/-- The `PrimitiveEnum` / `KeyImpl` safety invariant (lib.rs, lines 181-190 and
225-248): a valid key value of the enum is a discriminant that fits the
representation type and is less than `MAX_VARIANTS`. -/
def PrimitiveEnumLayout.ValidKey (L : PrimitiveEnumLayout) (k : Nat) : Prop :=
  k < 2 ^ L.discriminant.bits ∧ k < L.maxVariants

instance (L : PrimitiveEnumLayout) (k : Nat) : Decidable (L.ValidKey k) := by
  unfold PrimitiveEnumLayout.ValidKey
  infer_instance

/-- Embedding of `key_to_index` (lib.rs, lines 192-196): reinterpret the key
as its `Repr` and widen it to `usize`. -/
def key_to_index (L : PrimitiveEnumLayout) (key : Nat) : Nat :=
  into_usize L.discriminant (transmute_safe key)

/-- Embedding of `ConstArrayMap<K, V>` (lib.rs, lines 70-73): the storage
array `[V; N]` is a list whose length is the slot count of the key type. -/
structure ConstArrayMap (V : Type) where
  storage : List V
deriving DecidableEq

namespace ConstArrayMap

variable {V : Type}

/-- Embedding of `ConstArrayMap::get` (lib.rs, lines 100-106): unchecked
indexing at `key_to_index`; the bound is the `KeyImpl` safety invariant, here
an explicit hypothesis. -/
def get (m : ConstArrayMap V) (L : PrimitiveEnumLayout) (key : Nat)
    (h : key_to_index L key < m.storage.length) : V :=
  m.storage.get ⟨key_to_index L key, h⟩

/-- Embedding of `ConstArrayMap::const_get` (lib.rs, lines 108-116):
bounds-checked indexing at `key_to_index`; `none` models the panic of an
out-of-bounds `&self.storage[idx]`. -/
def const_get (m : ConstArrayMap V) (L : PrimitiveEnumLayout) (key : Nat) :
    Option V :=
  m.storage[key_to_index L key]?

/-- Embedding of an assignment through `ConstArrayMap::get_mut`
(lib.rs, lines 118-125): `*map.get_mut(key) = v` overwrites the slot at
`key_to_index` (unchecked; out of range is UB, excluded by the claims'
validity hypotheses — `List.set` is then a no-op rather than UB). -/
def set (m : ConstArrayMap V) (L : PrimitiveEnumLayout) (key : Nat) (v : V) :
    ConstArrayMap V :=
  ⟨m.storage.set (key_to_index L key) v⟩

/-- Embedding of an assignment through `ConstArrayMap::const_get_mut`
(lib.rs, lines 127-135): the bounds-checked counterpart of `set`; `none`
models the panic of an out-of-bounds `&mut self.storage[idx]`. -/
def const_set (m : ConstArrayMap V) (L : PrimitiveEnumLayout) (key : Nat)
    (v : V) : Option (ConstArrayMap V) :=
  if key_to_index L key < m.storage.length then some (m.set L key v) else none

/-- Embedding of `ConstArrayMap::into_values` (lib.rs, lines 137-142):
`self.storage.into_iter()` yields the slots in ascending index order. -/
def into_values (m : ConstArrayMap V) : List V :=
  m.storage

/-- Embedding of `ConstArrayMap::values` (lib.rs, lines 144-149):
`self.storage.iter()` yields the slots in ascending index order. -/
def values (m : ConstArrayMap V) : List V :=
  m.storage

/-- Embedding of `ConstArrayMap::values_mut` (lib.rs, lines 151-156):
`self.storage.iter_mut()` yields the slots in ascending index order. -/
def values_mut (m : ConstArrayMap V) : List V :=
  m.storage

/-- Embedding of `ConstDefault for ConstArrayMap` (lib.rs, lines 75-82): the
storage is `[V::DEFAULT; N]`; `d` is `V`'s const default value. -/
def DEFAULT (N : Nat) (d : V) : ConstArrayMap V :=
  ⟨List.replicate N d⟩

/-- Embedding of `Default for ConstArrayMap` (lib.rs, lines 84-93): the
storage is `<[V; N] as Default>::default()`, i.e. every slot holds `V`'s
default value `d`. -/
def default (N : Nat) (d : V) : ConstArrayMap V :=
  ⟨List.replicate N d⟩

end ConstArrayMap

/-- Embedding of the `const_array_map!` macro (lib.rs, lines 54-63): start
from the `ConstDefault` container and perform
`*map.const_get_mut(key) = value` for each pair in written order; `none`
models a panic of the bounds-checked write. -/
def const_array_map {V : Type} (N : Nat) (d : V) (L : PrimitiveEnumLayout)
    (pairs : List (Nat × V)) : Option (ConstArrayMap V) :=
  pairs.foldlM (fun m kv => m.const_set L kv.1 kv.2) (ConstArrayMap.DEFAULT N d)

/-! ### Helper lemmas -/

/-- A valid key's index is its discriminant: the widening cast does not
truncate because every supported width fits in `usize` on the 64-bit target. -/
theorem key_to_index_eq (L : PrimitiveEnumLayout) (k : Nat)
    (h : k < 2 ^ L.discriminant.bits) : key_to_index L k = k := by
  have hle : 2 ^ L.discriminant.bits ≤ 2 ^ usizeBits := by
    apply Nat.pow_le_pow_right (by norm_num)
    cases L.discriminant <;> simp [Width.bits, usizeBits]
  have hlt : k < 2 ^ usizeBits := lt_of_lt_of_le h hle
  unfold key_to_index into_usize transmute_safe
  cases L.discriminant <;> simp [Nat.mod_eq_of_lt hlt]

/-! ### C9: the numeric widening utility is value-preserving -/

/-- C9: for every supported unsigned width on the 64-bit target and every
value `x` of that width (`x < 2 ^ bits`), `into_usize` returns exactly `x`
as a natural number — no truncation, no wrap, no error path — and the result
fits the native index width. -/
theorem into_usize_value_preserving (w : Width) (x : Nat)
    (h : x < 2 ^ w.bits) : into_usize w x = x ∧ into_usize w x < 2 ^ usizeBits := by
  have hle : 2 ^ w.bits ≤ 2 ^ usizeBits := by
    apply Nat.pow_le_pow_right (by norm_num)
    cases w <;> simp [Width.bits, usizeBits]
  have hlt : x < 2 ^ usizeBits := lt_of_lt_of_le h hle
  constructor
  · unfold into_usize
    cases w <;> simp [Nat.mod_eq_of_lt hlt]
  · unfold into_usize
    cases w <;> simp [Nat.mod_eq_of_lt hlt] <;> exact hlt

/-- Witness for C9 at `w = u8`, `x = 255`. -/
theorem into_usize_value_preserving_witness :
    into_usize .u8 255 = 255 ∧ into_usize .u8 255 < 2 ^ usizeBits :=
  into_usize_value_preserving .u8 255 (by norm_num [Width.bits])

/-! ### C1: index computation is a bijection onto `[0, N)` -/

/-- C1: for every layout with slot count `N` and valid keys (discriminant in
`[0, N)` fitting the representation), `key_to_index` lands in `[0, N)`, and
distinct valid keys (distinct discriminants) get distinct indices. -/
theorem key_to_index_bijective (L : PrimitiveEnumLayout) (k1 k2 : Nat)
    (h1 : L.ValidKey k1) (h2 : L.ValidKey k2) :
    key_to_index L k1 < L.maxVariants ∧
      (k1 ≠ k2 → key_to_index L k1 ≠ key_to_index L k2) := by
  obtain ⟨h1w, h1N⟩ := h1
  obtain ⟨h2w, h2N⟩ := h2
  rw [key_to_index_eq L k1 h1w, key_to_index_eq L k2 h2w]
  exact ⟨h1N, fun hne => hne⟩

/-- Witness for C1: the layout of a 3-variant `u8` enum, keys 0 and 2. -/
theorem key_to_index_bijective_witness :
    key_to_index ⟨.u8, 3⟩ 0 < (3 : Nat) ∧
      ((0 : Nat) ≠ 2 → key_to_index ⟨.u8, 3⟩ 0 ≠ key_to_index ⟨.u8, 3⟩ 2) :=
  key_to_index_bijective ⟨.u8, 3⟩ 0 2 (by decide) (by decide)

/-! ### C2: checked and unchecked accessors agree -/

/-- C2: under the key-validity bound, the checked accessor returns `some` of
exactly the value the unchecked accessor reads (same slot, no failure), and
the checked mutable accessor addresses the same slot as the unchecked one. -/
theorem const_get_eq_get {V : Type} (m : ConstArrayMap V)
    (L : PrimitiveEnumLayout) (k : Nat) (v : V)
    (h : key_to_index L k < m.storage.length) :
    m.const_get L k = some (m.get L k h) ∧
      m.const_set L k v = some (m.set L k v) := by
  constructor
  · simp [ConstArrayMap.const_get, ConstArrayMap.get, List.getElem?_eq_getElem h]
  · simp [ConstArrayMap.const_set, h]

/-- Witness for C2: a two-slot map over a `u8` two-variant enum, key 1. -/
theorem const_get_eq_get_witness :
    (ConstArrayMap.mk [10, 20]).const_get ⟨.u8, 2⟩ 1 =
        some ((ConstArrayMap.mk [10, 20]).get ⟨.u8, 2⟩ 1 (by decide)) ∧
      (ConstArrayMap.mk [10, 20]).const_set ⟨.u8, 2⟩ 1 7 =
        some ((ConstArrayMap.mk [10, 20]).set ⟨.u8, 2⟩ 1 7) :=
  const_get_eq_get (ConstArrayMap.mk [10, 20]) ⟨.u8, 2⟩ 1 7 (by decide)

/-! ### C7: default construction fills every slot with the default value -/

/-- C7: a default-constructed container over a key type with slot count `N`
(either through `ConstDefault::DEFAULT` or `Default::default`), queried at
any valid key before any write, returns `V`'s default value. -/
theorem default_fill {V : Type} (N : Nat) (d : V) (L : PrimitiveEnumLayout)
    (k : Nat) (h : key_to_index L k < N) :
    (ConstArrayMap.DEFAULT N d).const_get L k = some d ∧
      (ConstArrayMap.default N d).const_get L k = some d := by
  constructor <;>
    simp [ConstArrayMap.DEFAULT, ConstArrayMap.default, ConstArrayMap.const_get,
      List.getElem?_replicate, if_pos h]

/-- Witness for C7: a 4-slot default container queried at key 3. -/
theorem default_fill_witness :
    (ConstArrayMap.DEFAULT 4 (0 : Nat)).const_get ⟨.u8, 4⟩ 3 = some 0 ∧
      (ConstArrayMap.default 4 (0 : Nat)).const_get ⟨.u8, 4⟩ 3 = some 0 :=
  default_fill 4 0 ⟨.u8, 4⟩ 3 (by decide)

/-! ### C8: mutation visibility and frame property -/

/-- C8: after writing `v` through `get_mut(k)` (or `index_mut`), `get(k)`
returns `v`; any key whose index differs is unaffected; and the write touches
no slot other than the one addressed by `k`. -/
theorem set_get_frame {V : Type} (m : ConstArrayMap V)
    (L : PrimitiveEnumLayout) (k k' : Nat) (v : V)
    (hk : key_to_index L k < (m.set L k v).storage.length)
    (hk' : key_to_index L k' < (m.set L k v).storage.length)
    (hk0 : key_to_index L k' < m.storage.length)
    (hne : key_to_index L k ≠ key_to_index L k') :
    (m.set L k v).get L k hk = v ∧
      (m.set L k v).get L k' hk' = m.get L k' hk0 ∧
      (∀ j, j ≠ key_to_index L k →
        (m.set L k v).storage[j]? = m.storage[j]?) := by
  have hlen : (m.set L k v).storage.length = m.storage.length :=
    List.length_set m.storage (key_to_index L k) v
  refine ⟨?_, ?_, ?_⟩
  · simp [ConstArrayMap.get, ConstArrayMap.set, List.getElem_set_self]
  · simp [ConstArrayMap.get, ConstArrayMap.set, List.getElem_set_ne hne]
  · intro j hj
    simp [ConstArrayMap.set, List.getElem?_set_ne (fun h => hj h.symm)]

/-- Witness for C8: write 9 at key 0 of a two-slot map, observe key 0 updated
and key 1 untouched. -/
theorem set_get_frame_witness :
    ((ConstArrayMap.mk [10, 20]).set ⟨.u8, 2⟩ 0 9).get ⟨.u8, 2⟩ 0 (by decide) = 9 ∧
      ((ConstArrayMap.mk [10, 20]).set ⟨.u8, 2⟩ 0 9).get ⟨.u8, 2⟩ 1 (by decide) =
        (ConstArrayMap.mk [10, 20]).get ⟨.u8, 2⟩ 1 (by decide) ∧
      (∀ j, j ≠ key_to_index ⟨.u8, 2⟩ 0 →
        ((ConstArrayMap.mk [10, 20]).set ⟨.u8, 2⟩ 0 9).storage[j]? =
          (ConstArrayMap.mk [10, 20]).storage[j]?) :=
  set_get_frame (ConstArrayMap.mk [10, 20]) ⟨.u8, 2⟩ 0 1 9 (by decide)
    (by decide) (by decide) (by decide)

/-! ### C6: iteration yields all N slots in ascending index order -/

/-- C6: over a key type with slot count `N`, `values`, `values_mut` and
`into_values` each yield exactly `N` elements, slot `i`'s content at
position `i` (ascending index order). -/
theorem values_iteration {V : Type} (m : ConstArrayMap V) (N : Nat)
    (h : m.storage.length = N) :
    m.values.length = N ∧ m.values_mut.length = N ∧ m.into_values.length = N ∧
      ∀ i, i < N →
        (m.values[i]? = m.storage[i]? ∧ m.values_mut[i]? = m.storage[i]? ∧
          m.into_values[i]? = m.storage[i]?) := by
  refine ⟨h, h, h, ?_⟩
  intro i _
  exact ⟨rfl, rfl, rfl⟩

/-- Witness for C6 on a concrete 3-slot container. -/
theorem values_iteration_witness :
    (ConstArrayMap.mk [4, 5, 6]).values.length = 3 ∧
      (ConstArrayMap.mk [4, 5, 6]).values_mut.length = 3 ∧
      (ConstArrayMap.mk [4, 5, 6]).into_values.length = 3 ∧
      ∀ i, i < 3 →
        ((ConstArrayMap.mk [4, 5, 6]).values[i]? =
            (ConstArrayMap.mk [4, 5, 6]).storage[i]? ∧
          (ConstArrayMap.mk [4, 5, 6]).values_mut[i]? =
            (ConstArrayMap.mk [4, 5, 6]).storage[i]? ∧
          (ConstArrayMap.mk [4, 5, 6]).into_values[i]? =
            (ConstArrayMap.mk [4, 5, 6]).storage[i]?) :=
  values_iteration (ConstArrayMap.mk [4, 5, 6]) 3 (by decide)

/-! ### C3: builder semantics -/

/-- Overwriting slots preserves the storage length. -/
theorem length_foldl_set {V : Type} (L : PrimitiveEnumLayout)
    (pairs : List (Nat × V)) (m : ConstArrayMap V) :
    (pairs.foldl (fun m kv => m.set L kv.1 kv.2) m).storage.length =
      m.storage.length := by
  induction pairs generalizing m with
  | nil => rfl
  | cons p ps ih =>
    simp only [List.foldl_cons]
    rw [ih]
    exact List.length_set m.storage _ _

/-- When every pair's key is in bounds, the checked builder never fails and
equals the plain overwrite fold. -/
theorem foldlM_const_set_eq {V : Type} (L : PrimitiveEnumLayout)
    (pairs : List (Nat × V)) (m : ConstArrayMap V)
    (hp : ∀ p ∈ pairs, key_to_index L p.1 < m.storage.length) :
    pairs.foldlM (fun m kv => m.const_set L kv.1 kv.2) m =
      some (pairs.foldl (fun m kv => m.set L kv.1 kv.2) m) := by
  induction pairs generalizing m with
  | nil => rfl
  | cons p ps ih =>
    have hlt : key_to_index L p.1 < m.storage.length :=
      hp p (List.mem_cons_self p ps)
    simp only [List.foldlM_cons, List.foldl_cons, ConstArrayMap.const_set,
      if_pos hlt, Option.bind_eq_bind, Option.some_bind]
    apply ih
    intro q hq
    have : (m.set L p.1 p.2).storage.length = m.storage.length :=
      List.length_set m.storage _ _
    rw [this]
    exact hp q (List.mem_cons_of_mem p hq)

/-- A slot whose index no pair addresses is unchanged by the overwrite fold. -/
theorem foldl_set_frame {V : Type} (L : PrimitiveEnumLayout)
    (pairs : List (Nat × V)) (m : ConstArrayMap V) (j : Nat)
    (hj : ∀ p ∈ pairs, key_to_index L p.1 ≠ j) :
    (pairs.foldl (fun m kv => m.set L kv.1 kv.2) m).storage[j]? =
      m.storage[j]? := by
  induction pairs generalizing m with
  | nil => rfl
  | cons p ps ih =>
    simp only [List.foldl_cons]
    rw [ih _ (fun q hq => hj q (List.mem_cons_of_mem p hq))]
    exact List.getElem?_set_ne (hj p (List.mem_cons_self p ps))

/-- C3: the `const_array_map!` builder equals "start from the all-default
container, then overwrite each pair's slot in written order"; building from
`[(k, v1), (k, v2)]` yields `get(k) = v2` (last write wins); and every valid
key not mentioned in the pair list still maps to `V`'s default value. -/
theorem builder_semantics {V : Type} (N : Nat) (d : V)
    (L : PrimitiveEnumLayout) (pairs : List (Nat × V)) (k : Nat) (v1 v2 : V)
    (hp : ∀ p ∈ pairs, key_to_index L p.1 < N)
    (hk : key_to_index L k < N) :
    (const_array_map N d L pairs =
        some (pairs.foldl (fun m kv => m.set L kv.1 kv.2)
          (ConstArrayMap.DEFAULT N d))) ∧
      (const_array_map N d L [(k, v1), (k, v2)] =
          some (((ConstArrayMap.DEFAULT N d).set L k v1).set L k v2) ∧
        (((ConstArrayMap.DEFAULT N d).set L k v1).set L k v2).const_get L k =
          some v2) ∧
      ((∀ p ∈ pairs, key_to_index L p.1 ≠ key_to_index L k) →
        ∃ mm, const_array_map N d L pairs = some mm ∧
          mm.const_get L k = some d) := by
  have hdeflen : (ConstArrayMap.DEFAULT N d).storage.length = N := by
    simp [ConstArrayMap.DEFAULT]
  refine ⟨?_, ⟨?_, ?_⟩, ?_⟩
  · exact foldlM_const_set_eq L pairs _ (by rw [hdeflen]; exact hp)
  · apply foldlM_const_set_eq L [(k, v1), (k, v2)] _
    intro p hq
    rw [hdeflen]
    simp only [List.mem_cons, List.not_mem_nil, or_false] at hq
    rcases hq with h | h <;> subst h <;> exact hk
  · have hlen :
        (((ConstArrayMap.DEFAULT N d).set L k v1).set L k v2).storage.length =
          N := by
      simp [ConstArrayMap.set, hdeflen]
    have hk2 : key_to_index L k <
        (((ConstArrayMap.DEFAULT N d).set L k v1).set L k v2).storage.length := by
      rw [hlen]; exact hk
    simp only [ConstArrayMap.const_get, List.getElem?_eq_getElem hk2]
    simp [ConstArrayMap.set, List.getElem_set_self]
  · intro hnot
    refine ⟨_, foldlM_const_set_eq L pairs _ (by rw [hdeflen]; exact hp), ?_⟩
    simp only [ConstArrayMap.const_get]
    rw [foldl_set_frame L pairs _ _ hnot]
    simp [ConstArrayMap.DEFAULT, ConstArrayMap.const_get,
      List.getElem?_replicate, if_pos hk]

/-- Witness for C3: a 3-slot builder over keys 0 and 2, duplicate writes at
key 0, key 2 untouched by the duplicate list. -/
theorem builder_semantics_witness :
    (const_array_map 3 (0 : Nat) ⟨.u8, 3⟩ [(0, 5), (0, 6)] =
        some ([(0, 5), (0, 6)].foldl
          (fun m kv => m.set ⟨.u8, 3⟩ kv.1 kv.2)
          (ConstArrayMap.DEFAULT 3 (0 : Nat)))) ∧
      (const_array_map 3 (0 : Nat) ⟨.u8, 3⟩ [(0, 5), (0, 6)] =
          some (((ConstArrayMap.DEFAULT 3 (0 : Nat)).set ⟨.u8, 3⟩ 0 5).set
            ⟨.u8, 3⟩ 0 6) ∧
        (((ConstArrayMap.DEFAULT 3 (0 : Nat)).set ⟨.u8, 3⟩ 0 5).set
            ⟨.u8, 3⟩ 0 6).const_get ⟨.u8, 3⟩ 0 = some 6) ∧
      ((∀ p ∈ [(0, 5), (0, 6)],
          key_to_index ⟨.u8, 3⟩ p.1 ≠ key_to_index ⟨.u8, 3⟩ 0) →
        ∃ mm, const_array_map 3 (0 : Nat) ⟨.u8, 3⟩ [(0, 5), (0, 6)] = some mm ∧
          mm.const_get ⟨.u8, 3⟩ 0 = some 0) :=
  builder_semantics 3 0 ⟨.u8, 3⟩ [(0, 5), (0, 6)] 0 5 6 (by decide) (by decide)

/-! ### The `PrimitiveEnum` derive macro
(`src/const_array_map_derive/src/lib.rs`). `syn` inputs are modelled by the
fields the macro inspects: an enum variant by its optional explicit
discriminant (with its literal value, when one is written), an attribute by
its path identifier, style, and the identifier parsed from its list
arguments. `anyhow::Result` is `Except String`; a Rust debug-mode arithmetic
overflow panic is also an error. -/

/-- An enum variant as the derive macro sees it: `variant.discriminant` is
`some d` when the declaration assigns `= d` explicitly. -/
structure Variant where
  discriminant : Option Nat
deriving DecidableEq

/-- The shape of `syn::Data` as matched by `derive`: an enum with its
variants, or any other item kind. -/
inductive Data where
  | enumData (variants : List Variant)
  | structData
  | unionData
deriving DecidableEq

/-- An attribute as inspected by `parse_repr_attribute`:
`attr.path().get_ident()`, whether `attr.style` is `AttrStyle::Outer`, and
the identifier obtained from `attr.meta.require_list()?.parse_args::<Ident>()`
(`none` when that parse fails). -/
structure Attribute where
  pathIdent : Option String
  outerStyle : Bool
  listArgIdent : Option String
deriving DecidableEq

/-- The macro input: `DeriveInput`'s `data` and `attrs` fields. -/
structure DeriveInput where
  data : Data
  attrs : List Attribute
deriving DecidableEq

/-- Embedding of `EnumRepr` (derive lib.rs, lines 70-76). -/
inductive EnumRepr where
  | u8
  | u16
  | u32
  | u64
  | usize
deriving DecidableEq

/-- The emitted `PrimitiveEnumLayout<#repr, #max_variants>` of a successful
derive (derive lib.rs, lines 23-27). -/
structure DerivedLayout where
  repr : EnumRepr
  max_variants : Nat
deriving DecidableEq

/-- The attribute search of `parse_repr_attribute` (derive lib.rs, lines
31-41): the first attribute whose path identifier is `repr` and whose style
is outer. -/
def findReprAttr (attrs : List Attribute) : Option Attribute :=
  attrs.find? (fun attr => attr.pathIdent == some "repr" && attr.outerStyle)

/-- Embedding of `parse_repr_attribute` (derive lib.rs, lines 30-58). -/
def parse_repr_attribute (attrs : List Attribute) : Except String EnumRepr :=
  match findReprAttr attrs with
  | none => .error "enum must have a primitive representation"
  | some attr =>
    match attr.listArgIdent with
    | none => .error "expected a list attribute with an identifier argument"
    | some reprStr =>
      match reprStr with
      | "u8" => .ok .u8
      | "u16" => .ok .u16
      | "u32" => .ok .u32
      | "u64" => .ok .u64
      | "usize" => .ok .usize
      | _ =>
        .error ("`" ++ reprStr ++
          "` is not a supported primitive enum representation")

/-- Rust `a - b` on `usize` under debug overflow checks: panics (an error)
when it would underflow. -/
def checkedSub (a b : Nat) : Except String Nat :=
  if b ≤ a then .ok (a - b) else .error "attempt to subtract with overflow"

/-- Embedding of `max_discriminant` (derive lib.rs, lines 60-68): bail when
any variant has an explicitly set discriminant, otherwise return
`variants.len() - 1` (a debug-mode underflow panic on an empty list). -/
def max_discriminant (variants : List Variant) : Except String Nat :=
  if variants.any (fun v => v.discriminant.isSome) then
    .error "enums that have variants with explicitly set discriminants are not supported"
  else
    checkedSub variants.length 1

/-- Embedding of `derive` (derive lib.rs, lines 13-28): require an enum,
parse the repr attribute, compute `max_discriminant + 1`, emit the layout. -/
def derive (input : DeriveInput) : Except String DerivedLayout :=
  match input.data with
  | .enumData variants =>
    match parse_repr_attribute input.attrs with
    | .error e => .error e
    | .ok repr =>
      match max_discriminant variants with
      | .error e => .error e
      | .ok md => .ok ⟨repr, md + 1⟩
  | _ => .error "`PrimitiveEnum` only applies to enums"

/-- The discriminant values Rust assigns to the declared variants: an
explicit value when written, otherwise the previous variant's value plus one
(zero at the start). -/
def assignedDiscriminants : List Variant → Nat → List Nat
  | [], _ => []
  | v :: vs, next =>
    let d := v.discriminant.getD next
    d :: assignedDiscriminants vs (d + 1)

/-- With no explicit discriminants, the assigned values from `next` are
`next, next + 1, ...`, whose maximum is `next + len - 1` (for nonempty
lists). -/
theorem assignedDiscriminants_max (vs : List Variant) (next : Nat)
    (h : ∀ v ∈ vs, v.discriminant = none) (hne : vs ≠ []) :
    (assignedDiscriminants vs next).foldr max 0 = next + vs.length - 1 := by
  induction vs generalizing next with
  | nil => exact absurd rfl hne
  | cons v vs ih =>
    have hv : v.discriminant = none := h v (List.mem_cons_self v vs)
    simp only [assignedDiscriminants, hv, Option.getD_none, List.foldr_cons]
    cases hvs : vs with
    | nil => simp [assignedDiscriminants]
    | cons w ws =>
      rw [← hvs, ih next.succ (fun u hu => h u (List.mem_cons_of_mem v hu))
        (by simp [hvs])]
      have hlen : 1 ≤ vs.length := by simp [hvs]
      rw [max_eq_right (by omega)]
      simp only [List.length_cons]
      omega

/-- `parse_repr_attribute` succeeds exactly when an outer `repr` attribute is
found whose argument parses to one of the five supported identifiers. -/
theorem parse_repr_attribute_ok_iff (attrs : List Attribute) :
    (∃ r, parse_repr_attribute attrs = .ok r) ↔
      ∃ attr, findReprAttr attrs = some attr ∧
        ∃ s, attr.listArgIdent = some s ∧
          s ∈ (["u8", "u16", "u32", "u64", "usize"] : List String) := by
  unfold parse_repr_attribute
  cases hfind : findReprAttr attrs with
  | none => simp
  | some attr =>
    simp only [Option.some.injEq]
    cases harg : attr.listArgIdent with
    | none => simp [harg]
    | some s =>
      constructor
      · rintro ⟨r, hr⟩
        refine ⟨attr, rfl, s, harg, ?_⟩
        split at hr <;> (try split at hr) <;> simp_all
      · rintro ⟨attr0, rfl, s0, hs0, hmem⟩
        rw [harg] at hs0
        injection hs0 with hs
        subst hs
        simp only [List.mem_cons, List.mem_singleton, List.not_mem_nil,
          or_false] at hmem
        rcases hmem with rfl | rfl | rfl | rfl | rfl
        · exact ⟨.u8, rfl⟩
        · exact ⟨.u16, rfl⟩
        · exact ⟨.u32, rfl⟩
        · exact ⟨.u64, rfl⟩
        · exact ⟨.usize, rfl⟩

/-- What a successful derive run implies about its input and output: the
input is an enum with at least one variant, no variant has an explicit
discriminant, and the emitted slot count is the variant count. -/
theorem derive_ok_spec (input : DeriveInput) (out : DerivedLayout)
    (hok : derive input = .ok out) :
    ∃ vs, input.data = .enumData vs ∧ 1 ≤ vs.length ∧
      (∀ v ∈ vs, v.discriminant = none) ∧ out.max_variants = vs.length := by
  unfold derive at hok
  cases hdata : input.data with
  | structData => rw [hdata] at hok; exact absurd hok (by simp)
  | unionData => rw [hdata] at hok; exact absurd hok (by simp)
  | enumData vs =>
    rw [hdata] at hok
    refine ⟨vs, rfl, ?_⟩
    have hok1 :
        (match parse_repr_attribute input.attrs with
          | Except.error e => Except.error e
          | Except.ok repr =>
            match max_discriminant vs with
            | Except.error e => Except.error e
            | Except.ok md => Except.ok (DerivedLayout.mk repr (md + 1))) =
          Except.ok out := hok
    cases hpr : parse_repr_attribute input.attrs with
    | error e => rw [hpr] at hok1; exact absurd hok1 (by simp)
    | ok repr =>
      rw [hpr] at hok1
      have hok2 :
          (match max_discriminant vs with
            | Except.error e => Except.error e
            | Except.ok md => Except.ok (DerivedLayout.mk repr (md + 1))) =
            Except.ok out := hok1
      cases hmd : max_discriminant vs with
      | error e => rw [hmd] at hok2; exact absurd hok2 (by simp)
      | ok md =>
        rw [hmd] at hok2
        have hout : DerivedLayout.mk repr (md + 1) = out := by
          simpa using hok2
        unfold max_discriminant at hmd
        by_cases hany : vs.any (fun v => v.discriminant.isSome) = true
        · rw [if_pos hany] at hmd
          exact absurd hmd (by simp)
        · rw [if_neg hany] at hmd
          unfold checkedSub at hmd
          by_cases hle : 1 ≤ vs.length
          · rw [if_pos hle] at hmd
            have hmd2 : vs.length - 1 = md := by
              simpa using hmd
            refine ⟨hle, ?_, ?_⟩
            · intro v hv
              simp only [List.any_eq_true, not_exists, not_and] at hany
              have hns := hany v hv
              cases hd : v.discriminant with
              | none => rfl
              | some d => rw [hd] at hns; simp at hns
            · rw [← hout]
              show md + 1 = vs.length
              omega
          · rw [if_neg hle] at hmd
            exact absurd hmd (by simp)

/-! ### C4: when the derive macro fails -/

/-- C4 (amended): the derive macro succeeds exactly when the input is an
enum, an outer `repr` attribute names one of the supported unsigned widths,
NO variant has an explicitly assigned discriminant (sequential or not), and
the enum has at least one variant. -/
theorem derive_accepts_iff (input : DeriveInput) :
    (∃ out, derive input = .ok out) ↔
      ∃ vs, input.data = .enumData vs ∧
        (∃ attr, findReprAttr input.attrs = some attr ∧
          ∃ s, attr.listArgIdent = some s ∧
            s ∈ (["u8", "u16", "u32", "u64", "usize"] : List String)) ∧
        (∀ v ∈ vs, v.discriminant = none) ∧ vs ≠ [] := by
  constructor
  · rintro ⟨out, hok⟩
    obtain ⟨vs, hdata, hlen, hnone, _⟩ := derive_ok_spec input out hok
    refine ⟨vs, hdata, ?_, hnone, ?_⟩
    · rw [← parse_repr_attribute_ok_iff]
      unfold derive at hok
      rw [hdata] at hok
      cases hpr : parse_repr_attribute input.attrs with
      | error e => rw [hpr] at hok; exact absurd hok (by simp)
      | ok repr => exact ⟨repr, rfl⟩
    · intro hnil
      rw [hnil] at hlen
      simp at hlen
  · rintro ⟨vs, hdata, hrepr, hnone, hne⟩
    obtain ⟨r, hpr⟩ := (parse_repr_attribute_ok_iff input.attrs).mpr hrepr
    have hany : vs.any (fun v => v.discriminant.isSome) = false := by
      simp only [List.any_eq_false]
      intro v hv
      rw [hnone v hv]
      simp
    have hlen : 1 ≤ vs.length := by
      cases vs with
      | nil => exact absurd rfl hne
      | cons w ws => simp
    have hmd : max_discriminant vs = .ok (vs.length - 1) := by
      unfold max_discriminant checkedSub
      rw [hany]
      simp [hlen]
    refine ⟨⟨r, vs.length - 1 + 1⟩, ?_⟩
    simp only [derive, hdata, hpr, hmd]

/-- The input the original C4 wrongly predicts is accepted: an enum with an
outer `#[repr(u8)]` attribute and one variant carrying the explicitly
assigned discriminant `0` — sequential numbering starting at 0. -/
def explicitSeqInput : DeriveInput :=
  ⟨.enumData [⟨some 0⟩], [⟨some "repr", true, some "u8"⟩]⟩

/-- Counterexample for C4: the declaration's explicitly assigned
discriminants are exactly the sequential numbering from 0 (as
`assignedDiscriminants` confirms), yet `derive` rejects it — it bails on any
explicitly set discriminant, in-sequence or not. -/
theorem derive_rejects_sequential_explicit :
    assignedDiscriminants [⟨some 0⟩] 0 = [0] ∧
      derive explicitSeqInput =
        .error "enums that have variants with explicitly set discriminants are not supported" := by
  constructor
  · rfl
  · rfl

/-! ### C5: the emitted slot count is the greatest discriminant plus one -/

/-- C5: a successful derive emits a layout whose slot count equals the
greatest variant discriminant plus 1, which under the (enforced) implicit
sequential numbering is exactly the number of variants. -/
theorem slot_count_eq_max_discriminant_succ (input : DeriveInput)
    (vs : List Variant) (out : DerivedLayout)
    (hdata : input.data = .enumData vs) (hok : derive input = .ok out) :
    out.max_variants = (assignedDiscriminants vs 0).foldr max 0 + 1 ∧
      out.max_variants = vs.length := by
  obtain ⟨vs0, hdata0, hlen0, hnone0, hmv0⟩ := derive_ok_spec input out hok
  rw [hdata] at hdata0
  injection hdata0 with hv
  subst hv
  have hne : vs ≠ [] := by
    intro h
    rw [h] at hlen0
    simp at hlen0
  rw [assignedDiscriminants_max vs 0 hnone0 hne]
  exact ⟨by omega, hmv0⟩

/-- The boundary input of C5: a `u8` enum with the single variant `A`
(implicit discriminant 0). -/
def singleVariantInput : DeriveInput :=
  ⟨.enumData [⟨none⟩], [⟨some "repr", true, some "u8"⟩]⟩

/-- Witness for C5: the single-variant boundary enum gets slot count exactly
1, and its default container holds exactly one slot. -/
theorem slot_count_eq_max_discriminant_succ_witness :
    ((DerivedLayout.mk .u8 1).max_variants =
        (assignedDiscriminants [⟨none⟩] 0).foldr max 0 + 1 ∧
      (DerivedLayout.mk .u8 1).max_variants = [(⟨none⟩ : Variant)].length) ∧
      (ConstArrayMap.DEFAULT 1 (0 : Nat)).storage.length = 1 :=
  ⟨slot_count_eq_max_discriminant_succ singleVariantInput [⟨none⟩]
      (DerivedLayout.mk .u8 1) rfl (by rfl), by decide⟩

/-! ### C10: no derived layout has slot count zero -/

/-- C10: `max_discriminant` on an empty variant list underflows
(`variants.len() - 1`, an error under Rust's checked arithmetic) instead of
returning a value, so every successfully derived layout has slot count at
least 1 — no derived container has zero slots. -/
theorem derived_slot_count_positive (input : DeriveInput)
    (out : DerivedLayout) (h : derive input = .ok out) :
    1 ≤ out.max_variants ∧
      max_discriminant [] = .error "attempt to subtract with overflow" := by
  obtain ⟨vs, _, hlen, _, hmv⟩ := derive_ok_spec input out h
  constructor
  · rw [hmv]
    exact hlen
  · rfl

/-- The two-variant input used to witness C10. -/
def twoVariantInput : DeriveInput :=
  ⟨.enumData [⟨none⟩, ⟨none⟩], [⟨some "repr", true, some "u16"⟩]⟩

/-- Witness for C10 on a concrete two-variant enum. -/
theorem derived_slot_count_positive_witness :
    1 ≤ (DerivedLayout.mk .u16 2).max_variants ∧
      max_discriminant [] = .error "attempt to subtract with overflow" :=
  derived_slot_count_positive twoVariantInput (DerivedLayout.mk .u16 2)
    (by rfl)

end ConstAssoc
